import Mathlib

set_option maxRecDepth 4000

/-!
Verification development for the Skool-community scraper (Apify actor).

The definitions below are a shallow embedding of the JavaScript sources:
  * `src/unnamed/part_002`      - the two `SkoolScraper` classes (Puppeteer- and
                                  CheerioCrawler-based); `handleApiRequest`,
                                  `extractPosts`, `processBatch`, `processPost`,
                                  `processComments`.
  * `src/skool-scraper/src/utils/parsers.js` - comment-tree extraction
                                  (`extractCommentsForPost`, `extractNestedComments`)
                                  and, in its concatenated api/auth modules,
                                  `parseSkoolApiResponse`, `extractPostData`,
                                  `hasCommunitytAccess`, `validateSkoolCookies`.
  * `src/skool-scraper/src/utils/filters.js` - `SmartFilterEngine`,
                                  `SearchPresets.getPresetConfig`,
                                  `processAdvancedFilters`, and, in its concatenated
                                  pagination module, `handleInfiniteScroll` and
                                  `smartScroll`.
  * `src/skool-scraper/src/main.js` - `handleScrapingError` (diagnostic records).

JavaScript values coming from `JSON.parse` are modelled by `JsValue`; `Option
JsValue` models a possibly-`undefined` expression (property access on a missing
key).  JSON numbers are modelled as `Int` (no claim involves fractional JSON
numbers).  Machine effects that cannot influence the verified properties
(timing delays, the browser, console output text that is not claim-relevant)
are dropped; every branch that decides a claim is kept.
-/

/-- A JSON value, as produced by a successful `JSON.parse`. -/
inductive JsValue where
  | jnull : JsValue
  | jbool : Bool → JsValue
  | jnum : Int → JsValue
  | jstr : String → JsValue
  | jarr : List JsValue → JsValue
  | jobj : List (String × JsValue) → JsValue

open JsValue

/-- JavaScript truthiness of a JSON value (`null`, `false`, `0`, `""` are falsy;
every array and object, including empty ones, is truthy). -/
def truthy : JsValue → Bool
  | jnull => false
  | jbool b => b
  | jnum n => decide (n ≠ 0)
  | jstr s => decide (s ≠ "")
  | jarr _ => true
  | jobj _ => true

/-- Truthiness of a possibly-`undefined` expression (`undefined` is falsy). -/
def optTruthy : Option JsValue → Bool
  | none => false
  | some v => truthy v

/-- Property access `v.k`: `undefined` (i.e. `none`) unless `v` is an object
that has the key.  (Access on `null` throws in JS; call sites that can receive
`null` handle that case explicitly.) -/
def member : JsValue → String → Option JsValue
  | jobj fs, k => (fs.find? (fun p => p.1 = k)).map (fun p => p.2)
  | _, _ => none

/-- Optional-chaining access `e?.k` on a possibly-`undefined` expression:
short-circuits `undefined` and `null` to `undefined`. -/
def omem : Option JsValue → String → Option JsValue
  | none, _ => none
  | some jnull, _ => none
  | some v, k => member v k

/-- JavaScript `a || b` on possibly-`undefined` operands. -/
def jsOrO (a b : Option JsValue) : Option JsValue :=
  if optTruthy a then a else b

/-- JavaScript `a || d` where the right operand is a literal default. -/
def jsOrV (a : Option JsValue) (d : JsValue) : JsValue :=
  match a with
  | some v => if truthy v then v else d
  | none => d

/-- The record produced by `parseSkoolApiResponse` (the debugging-only
`rawData` field is omitted; no claim mentions it). -/
structure ApiData where
  posts : JsValue
  totalPages : JsValue
  totalUsers : JsValue
  buildId : Option JsValue
  community : JsValue
  hasNextPage : JsValue
  currentPage : JsValue

/-- The record returned from `parseSkoolApiResponse`'s catch block. -/
def defaultApiData : ApiData :=
  { posts := jarr []
    totalPages := jnum 0
    totalUsers := jnum 0
    buildId := some jnull
    community := jobj []
    hasNextPage := jbool false
    currentPage := jnum 1 }

/-- `const pageProps = data?.pageProps || {};` -/
def pagePropsOf (data : JsValue) : JsValue :=
  jsOrV (member data "pageProps") (jobj [])

/-- The if/else-if chain that locates the posts array:
`pageProps.posts / items / feed / data / content`, then `data.posts`,
falling back to the initial `let posts = []`. -/
def postsLocation (data : JsValue) : JsValue :=
  let pp := pagePropsOf data
  if optTruthy (member pp "posts") then jsOrV (member pp "posts") (jarr [])
  else if optTruthy (member pp "items") then jsOrV (member pp "items") (jarr [])
  else if optTruthy (member pp "feed") then jsOrV (member pp "feed") (jarr [])
  else if optTruthy (member pp "data") then jsOrV (member pp "data") (jarr [])
  else if optTruthy (member pp "content") then jsOrV (member pp "content") (jarr [])
  else if optTruthy (member data "posts") then jsOrV (member data "posts") (jarr [])
  else jarr []

/-- Whether any recognized posts location holds a truthy value. -/
def hasPostsLocation (data : JsValue) : Bool :=
  let pp := pagePropsOf data
  optTruthy (member pp "posts") || optTruthy (member pp "items") ||
  optTruthy (member pp "feed") || optTruthy (member pp "data") ||
  optTruthy (member pp "content") || optTruthy (member data "posts")

/-- `parseSkoolApiResponse(jsonResponse)`.  The JS function takes a string and
begins with `JSON.parse`; the embedding takes the parse outcome instead:
`none` models a string `JSON.parse` rejects.  A string parsing to JSON `null`
also lands in the catch block, because the debug line `Object.keys(data)`
throws a `TypeError` on `null`; both therefore yield the default record. -/
def parseSkoolApiResponse (input : Option JsValue) : ApiData :=
  match input with
  | none => defaultApiData
  | some jnull => defaultApiData
  | some data =>
      let pp := pagePropsOf data
      let posts := postsLocation data
      { posts := jsOrV (some posts) (jarr [])
        totalPages := jsOrV (jsOrO (member pp "totalPages") (member pp "maxPage")) (jnum 0)
        totalUsers :=
          jsOrV (jsOrO (jsOrO (member pp "totalUsers") (member pp "memberCount"))
            (member pp "membersCount")) (jnum 0)
        buildId := member data "buildId"
        community :=
          jsOrV (jsOrO (jsOrO (member pp "community") (member pp "group"))
            (member pp "groupData")) (jobj [])
        hasNextPage := jsOrV (jsOrO (member pp "hasNextPage") (member pp "hasMore")) (jbool false)
        currentPage :=
          jsOrV (jsOrO (jsOrO (member pp "currentPage") (member pp "page"))
            (member pp "pageNumber")) (jnum 1) }

/-- `hasCommunitytAccess(apiResponse)` (name as in the source).  The parse
result always passes: either `posts` is an array (first test), or the
access-denied test reads the `error`/`message` fields, which do not exist on
the record `parseSkoolApiResponse` returns, so both are `undefined` and falsy
and the function falls through to `return true`. -/
def hasCommunitytAccess (a : ApiData) : Bool :=
  if truthy a.posts && (match a.posts with | jarr _ => true | _ => false) then true
  else true

mutual

/-- JavaScript string conversion (template-literal coercion) of a JSON value:
`null → "null"`, array → comma-joined elements with `null` rendered empty,
object → `"[object Object]"`. -/
def jsToStr : JsValue → String
  | jnull => "null"
  | jbool b => if b then "true" else "false"
  | jnum n => toString n
  | jstr s => s
  | jarr xs => String.intercalate "," (jsToStrElems xs)
  | jobj _ => "[object Object]"

def jsToStrElems : List JsValue → List String
  | [] => []
  | jnull :: rest => "" :: jsToStrElems rest
  | v :: rest => jsToStr v :: jsToStrElems rest

end

/-- Conversion of a possibly-`undefined` expression (`undefined → "undefined"`). -/
def jsToStrO : Option JsValue → String
  | none => "undefined"
  | some v => jsToStr v

/-- The `author` sub-object built by `extractPostData`. -/
structure AuthorOut where
  id : Option JsValue
  name : Option JsValue
  email : Option JsValue
  avatar : Option JsValue

/-- The normalized post record built by `extractPostData`. -/
structure PostOut where
  id : Option JsValue
  title : Option JsValue
  content : Option JsValue
  author : AuthorOut
  createdAt : Option JsValue
  updatedAt : Option JsValue
  likes : JsValue
  comments : JsValue
  url : JsValue
  isPrivate : JsValue
  tags : JsValue
  media : JsValue
  commentsData : JsValue

/-- `extractPostData(post)`: every field is a `||`-chain of property reads.
Property access throws only on `null` (array elements from JSON are never
`undefined`), so the catch block - which returns `null` - is reached exactly
when the element itself is JSON `null`. -/
def extractPostData (p : JsValue) : Option PostOut :=
  match p with
  | jnull => none
  | _ => some
      { id := jsOrO (member p "id") (member p "_id")
        title := jsOrO (member p "title") (member p "subject")
        content := jsOrO (jsOrO (member p "content") (member p "body")) (member p "text")
        author :=
          { id := jsOrO (omem (member p "author") "id") (omem (member p "user") "id")
            name := jsOrO (jsOrO (omem (member p "author") "name")
              (omem (member p "user") "name")) (omem (member p "author") "displayName")
            email := jsOrO (omem (member p "author") "email") (omem (member p "user") "email")
            avatar := jsOrO (jsOrO (omem (member p "author") "avatar")
              (omem (member p "user") "avatar")) (omem (member p "author") "profilePicture") }
        createdAt := jsOrO (jsOrO (member p "createdAt") (member p "created_at"))
          (member p "timestamp")
        updatedAt := jsOrO (member p "updatedAt") (member p "updated_at")
        likes := jsOrV (jsOrO (jsOrO (member p "likes") (member p "likeCount"))
          (omem (member p "reactions") "like")) (jnum 0)
        comments := jsOrV (jsOrO (member p "comments") (member p "commentCount")) (jnum 0)
        url := jsOrV (member p "url")
          (jstr ("https://www.skool.com/post/" ++ jsToStrO (member p "id")))
        isPrivate := jsOrV (jsOrO (member p "isPrivate") (member p "private")) (jbool false)
        tags := jsOrV (member p "tags") (jarr [])
        media := jsOrV (jsOrO (member p "media") (member p "attachments")) (jarr [])
        commentsData := jsOrV (member p "commentsData") (jarr []) }

/-- One processed comment from `SkoolScraper.processComments`. -/
structure ApiComment where
  id : Option JsValue
  content : Option JsValue
  authorId : Option JsValue
  authorName : Option JsValue
  authorAvatar : Option JsValue
  createdAt : Option JsValue
  likes : JsValue
  replies : JsValue

/-- Builds one entry of `processComments`'s output. -/
def mkApiComment (c : JsValue) : ApiComment :=
  { id := member c "id"
    content := jsOrO (member c "content") (member c "text")
    authorId := omem (member c "author") "id"
    authorName := jsOrO (omem (member c "author") "name") (omem (member c "author") "displayName")
    authorAvatar := omem (member c "author") "avatar"
    createdAt := jsOrO (member c "createdAt") (member c "created_at")
    likes := jsOrV (jsOrO (member c "likes") (member c "likeCount")) (jnum 0)
    replies := jsOrV (member c "replies") (jarr []) }

/-- `SkoolScraper.processComments(commentsData)` with
`maxComments = this.input.commentsLimit || 50`.  A non-array yields `[]`; a
`null` element makes `comment.id` throw inside the try, and the catch also
yields `[]`. -/
def processComments (commentsData : JsValue) (commentsLimit : Nat) : List ApiComment :=
  let maxComments := if commentsLimit = 0 then 50 else commentsLimit
  match commentsData with
  | jarr xs =>
      let scanned := xs.take maxComments
      if scanned.any (fun x => match x with | jnull => true | _ => false) then []
      else scanned.map mkApiComment
  | _ => []

/-- The input fields of the CheerioCrawler scraper that the API path reads. -/
structure ApiInput where
  maxItems : Nat
  includeComments : Bool
  commentsLimit : Nat
  tab : String

/-- `SkoolScraper.processPost(postData, communityName, originalUrl)`: wraps the
`extractPostData` record with community context and, when requested and the raw
`comments` field is truthy, the processed comments.  Returns `none` exactly
when `extractPostData` returned `null`.  (The `scrapedAt`/`scrapedBy` metadata
strings are not modelled; no claim mentions them.) -/
structure ProcessedPost where
  post : PostOut
  communityName : String
  communityUrl : String
  tab : String
  comments : Option (List ApiComment)

def processPost (inp : ApiInput) (communityName originalUrl : String) (p : JsValue) :
    Option ProcessedPost :=
  match extractPostData p with
  | none => none
  | some post => some
      { post := post
        communityName := communityName
        communityUrl := originalUrl
        tab := inp.tab
        comments :=
          if inp.includeComments && optTruthy (member p "comments")
          then some (processComments (jsOrV (member p "comments") (jarr [])) inp.commentsLimit)
          else none }

/-- The `for (const post of posts)` loop of `handleApiRequest`: `itemCount`
starts at 0 for each page request, breaks at `maxItems`, and increments only
when `processPost` succeeds.  Returns the emitted posts and the final
`itemCount`. -/
def processPostsLoop (inp : ApiInput) (communityName originalUrl : String) (maxI : Nat) :
    List JsValue → Nat → (List ProcessedPost × Nat)
  | [], n => ([], n)
  | p :: rest, n =>
      if maxI ≤ n then ([], n)
      else
        match processPost inp communityName originalUrl p with
        | some pp =>
            let r := processPostsLoop inp communityName originalUrl maxI rest (n + 1)
            (pp :: r.1, r.2)
        | none => processPostsLoop inp communityName originalUrl maxI rest n

/-- The iterable items of the `for..of` loop over `posts`: `none` when
`posts` is not iterable (the handler would throw); a string iterates its
characters as singleton strings. -/
def elemsOf : JsValue → Option (List JsValue)
  | jarr l => some l
  | jstr s => some (s.toList.map (fun c => jstr (String.singleton c)))
  | _ => none

/-- `SkoolScraper.handleApiRequest(request, json)` for one page response
(the CheerioCrawler/cursor-paginated strategy).  The crawler hands the handler
the parsed JSON body; `parseSkoolApiResponse(JSON.stringify(json))` therefore
sees exactly that value again.  `none` models the handler throwing (no access,
or non-iterable posts value).  Returns the posts pushed to the dataset for
this page and whether the next page was queued
(`apiData.hasNextPage && itemCount < maxItems`).
`const maxItems = this.input.maxItems || 30` is the `if ... = 0 then 30`. -/
def handleApiRequest (inp : ApiInput) (communityName originalUrl : String) (j : JsValue) :
    Option (List ProcessedPost × Bool) :=
  let apiData := parseSkoolApiResponse (some j)
  if hasCommunitytAccess apiData = false then none
  else
    let posts := jsOrV (some apiData.posts) (jarr [])
    match elemsOf posts with
    | none => none
    | some l =>
        let maxI := if inp.maxItems = 0 then 30 else inp.maxItems
        let r := processPostsLoop inp communityName originalUrl maxI l 0
        some (r.1, truthy apiData.hasNextPage && decide (r.2 < maxI))

/-- Driving `handleApiRequest` over successive page requests: page `n+1` is
queued exactly when the handler for page `n` asked for it.  `fuel` bounds the
recursion; a handler throw ends the target's traversal (after crawlee's
retries see the same deterministic response, `failedRequestHandler` only
records the error).  Returns every post pushed for the target, in order. -/
def runApi (inp : ApiInput) (communityName originalUrl : String)
    (server : Nat → JsValue) : Nat → Nat → List ProcessedPost
  | 0, _ => []
  | fuel + 1, page =>
      match handleApiRequest inp communityName originalUrl (server page) with
      | none => []
      | some (emitted, cont) =>
          emitted ++ (if cont then runApi inp communityName originalUrl server fuel (page + 1)
            else [])

/-- The id of an emitted post, collapsed to its string form when it is a JSON
string (`Post.id` is a string on the wire). -/
def idStrOf : Option JsValue → Option String
  | some (jstr s) => some s
  | _ => none

/-- The candidate id of one raw array element: the id `handleApiRequest` would
emit for it, or `none` when processing the element fails. -/
def candidateId (p : JsValue) : Option (Option String) :=
  (extractPostData p).map (fun o => idStrOf o.id)

/-- All candidate ids of one page response, in order. -/
def pageCandidateIds (j : JsValue) : List (Option String) :=
  let apiData := parseSkoolApiResponse (some j)
  match elemsOf (jsOrV (some apiData.posts) (jarr [])) with
  | some l => l.filterMap candidateId
  | none => []

/-- All candidate ids of the first `fuel` pages starting at `page`. -/
def apiCandidateIds (server : Nat → JsValue) : Nat → Nat → List (Option String)
  | 0, _ => []
  | fuel + 1, page => pageCandidateIds (server page) ++ apiCandidateIds server fuel (page + 1)

/-- Ids of an emitted post list, in emission order. -/
def outIds (l : List ProcessedPost) : List (Option String) :=
  l.map (fun pp => idStrOf pp.post.id)

/-- What one tick of a scrolling loop observes on the page: the document
height, the number of rendered items matching the item selector, and whether a
visible "load more" button exists and its click succeeds. -/
structure ScrollObs where
  height : Nat
  items : Nat
  loadMoreOk : Bool

/-- The mutable locals of `handleInfiniteScroll`'s while loop.  `t` indexes the
page-state stream (one observation per loop iteration). -/
structure ScrollState where
  t : Nat
  prevHeight : Nat
  stable : Nat
  attempts : Nat
  itemCount : Nat

/-- The initial locals: `itemCount = 0`, `previousHeight = 0`,
`stableScrollCount = 0`, `scrollAttempts = 0`. -/
def initScroll : ScrollState := ⟨0, 0, 0, 0, 0⟩

/-- One iteration body of `handleInfiniteScroll`'s while loop.  `inl n` models
a `break` with final item count `n`; `inr s` models reaching the end of the
body (or the `continue` after a successful load-more click) with locals `s`.
`maxScrollAttempts = 200`; only the fall-through path increments
`scrollAttempts`. -/
def scrollStep (src : Nat → ScrollObs) (maxItems : Nat) (s : ScrollState) :
    Nat ⊕ ScrollState :=
  let o := src s.t
  if maxItems > 0 && decide (o.items ≥ maxItems) then Sum.inl o.items
  else if o.height = s.prevHeight then
    if s.stable + 1 ≥ 3 then
      if o.loadMoreOk then
        Sum.inr { t := s.t + 1, prevHeight := s.prevHeight, stable := 0,
                  attempts := s.attempts, itemCount := o.items }
      else Sum.inl o.items
    else
      Sum.inr { t := s.t + 1, prevHeight := s.prevHeight, stable := s.stable + 1,
                attempts := s.attempts + 1, itemCount := o.items }
  else
    Sum.inr { t := s.t + 1, prevHeight := o.height, stable := 0,
              attempts := s.attempts + 1, itemCount := o.items }

/-- `handleInfiniteScroll(page, maxItems, ...)` as a fuel-indexed loop:
`some n` is the item count returned on normal exit (break, or the
`scrollAttempts < maxScrollAttempts` guard turning false); `none` means the
loop was still running when the fuel ran out. -/
def handleInfiniteScrollRun (src : Nat → ScrollObs) (maxItems : Nat) :
    Nat → ScrollState → Option Nat
  | 0, _ => none
  | fuel + 1, s =>
      if s.attempts ≥ 200 then some s.itemCount
      else
        match scrollStep src maxItems s with
        | Sum.inl n => some n
        | Sum.inr s' => handleInfiniteScrollRun src maxItems fuel s'

/-- The mutable locals of `smartScroll`'s `while (true)` loop. -/
structure SmartState where
  t : Nat
  totalScrolls : Nat
  lastItemCount : Nat
  stuckCount : Nat

def initSmart : SmartState := ⟨0, 0, 0, 0⟩

/-- One iteration body of `smartScroll`'s `while (true)` loop.  The adaptive
block runs only when `adaptiveDelay && totalScrolls > 5`; a stuck streak of 3
tries the load-more button and breaks only when the click fails.  Unlike
`handleInfiniteScroll`, a successful click falls through to the scroll action.
The delay arithmetic is timing-only and not modelled. -/
def smartStep (src : Nat → ScrollObs) (maxItems : Nat) (adaptiveDelay : Bool)
    (s : SmartState) : Nat ⊕ SmartState :=
  let o := src s.t
  if maxItems > 0 && decide (o.items ≥ maxItems) then Sum.inl o.items
  else
    let stuck1 := if adaptiveDelay && decide (s.totalScrolls > 5)
      then (if o.items = s.lastItemCount then s.stuckCount + 1 else 0)
      else s.stuckCount
    if adaptiveDelay && decide (s.totalScrolls > 5) && decide (stuck1 ≥ 3) then
      if o.loadMoreOk then
        Sum.inr { t := s.t + 1, totalScrolls := s.totalScrolls + 1,
                  lastItemCount := o.items, stuckCount := 0 }
      else Sum.inl o.items
    else
      Sum.inr { t := s.t + 1, totalScrolls := s.totalScrolls + 1,
                lastItemCount := o.items, stuckCount := stuck1 }

/-- `smartScroll(page, options)` as a fuel-indexed loop; `none` means the
`while (true)` loop was still running when the fuel ran out. -/
def smartScrollRun (src : Nat → ScrollObs) (maxItems : Nat) (adaptiveDelay : Bool) :
    Nat → SmartState → Option Nat
  | 0, _ => none
  | fuel + 1, s =>
      match smartStep src maxItems adaptiveDelay s with
      | Sum.inl n => some n
      | Sum.inr s' => smartScrollRun src maxItems adaptiveDelay fuel s'

/-- A DOM comment element as seen by `extractCommentsForPost` and
`extractNestedComments`: whether `parseCommentData` on it succeeds (its
validation can throw), whether `element.$$(nestedComments)` on it throws
(the outer catch of `extractNestedComments`), and its nested comment
elements in document order.  `cid` stands for the extracted comment id. -/
inductive CElem where
  | mk (cid : Nat) (parseOk : Bool) (queryFails : Bool) (children : List CElem)

def CElem.cid : CElem → Nat
  | .mk i _ _ _ => i

def CElem.parseOk : CElem → Bool
  | .mk _ b _ _ => b

def CElem.queryFails : CElem → Bool
  | .mk _ _ b _ => b

def CElem.children : CElem → List CElem
  | .mk _ _ _ cs => cs

/-- A node of the returned comment forest: the comment data plus its `replies`
list (absent `replies` and `replies = []` both modelled as `[]`). -/
inductive CommentOut where
  | mk (cid : Nat) (replies : List CommentOut)

def CommentOut.cid : CommentOut → Nat
  | .mk i _ => i

def CommentOut.replies : CommentOut → List CommentOut
  | .mk _ rs => rs

mutual

/-- `extractNestedComments(page, commentElement, depth)`: `depth <= 0` returns
`[]` immediately; a throwing `commentElement.$$` lands in the outer catch,
which logs and returns `[]`. -/
def extractNestedComments (depth : Nat) (e : CElem) : List CommentOut :=
  match depth with
  | 0 => []
  | d + 1 => if e.queryFails then [] else extractNestedList d e.children

/-- The `for (const nestedElement of nestedElements)` loop at the given
remaining depth: a throwing `parseCommentData` hits `continue` (the element is
skipped); otherwise the node is kept with `replies` from the recursive call at
`depth - 1`. -/
def extractNestedList (d : Nat) (es : List CElem) : List CommentOut :=
  match es with
  | [] => []
  | c :: cs =>
      (if c.parseOk then [CommentOut.mk c.cid (extractNestedComments d c)] else [])
        ++ extractNestedList d cs

end

/-- `extractCommentsForPost(page, postUrl, maxDepth)`, from the point where the
top-level comment elements have been collected (`pageOk = false` models the
navigation/container failures before that point, both of which return `[]`).
Each top-level element is parsed (a throw skips it via `continue`) and its
replies come from `extractNestedComments(element, maxDepth - 1)`. -/
def extractCommentsForPost (pageOk : Bool) (els : List CElem) (maxDepth : Nat) :
    List CommentOut :=
  if pageOk = false then []
  else els.filterMap (fun e =>
    if e.parseOk then some (CommentOut.mk e.cid (extractNestedComments (maxDepth - 1) e))
    else none)

mutual

/-- Nesting depth of a returned comment node: a leaf is 1 level deep. -/
def commentDepth : CommentOut → Nat
  | .mk _ rs => 1 + commentDepthList rs

/-- Maximal nesting depth over a list of nodes (0 for `[]`). -/
def commentDepthList : List CommentOut → Nat
  | [] => 0
  | c :: cs => max (commentDepth c) (commentDepthList cs)

end

/-- A DOM post element as seen by the Puppeteer-strategy `extractPosts`:
whether `parsePostData` succeeds, whether the resulting record passes
`validatePostData`, and the extracted post id. -/
structure PElem where
  parseOk : Bool
  valid : Bool
  pid : String

/-- `SkoolScraper.processBatch(postElements, startIndex)` (Puppeteer strategy):
one pass over a slice, a throwing `parsePostData` hits `continue`, an invalid
record is skipped with a warning; survivors are appended in order.  (Comment
enrichment never removes a post: its failure only sets `comments = []`.) -/
def processBatch (batch : List PElem) : List PElem :=
  batch.filterMap (fun e => if e.parseOk && e.valid then some e else none)

/-- `SkoolScraper.extractPosts()` (Puppeteer strategy): processes the rendered
elements in slices of `batchSize = 10` and concatenates the batches in order. -/
def extractPosts : List PElem → List PElem
  | [] => []
  | e :: rest =>
      processBatch ((e :: rest).take 10) ++ extractPosts ((e :: rest).drop 10)
  termination_by els => els.length
  decreasing_by
    simp only [List.length_drop, List.length_cons]
    omega

/-- A post record as consumed by `SmartFilterEngine` (`filters.js`): optional
fields model possibly-absent properties; `createdAt` is the epoch-millisecond
value of `new Date(post.createdAt).getTime()`; `hasImagePreview` is the
truthiness of `post.media?.imagePreview`. -/
structure FPost where
  title : Option String
  content : Option String
  createdAt : Int
  likes : Option Nat
  comments : Option Nat
  authorName : Option String
  authorId : Option String
  hasImagePreview : Bool
deriving DecidableEq

/-- `searchFilters.dateRange`: dates are modelled by their epoch-millisecond
timestamps (the JS `YYYY-MM-DD` strings are parsed with `new Date`). -/
structure DateRangeF where
  enabled : Bool
  startDate : Option Int
  endDate : Option Int
deriving DecidableEq

structure EngagementF where
  enabled : Bool
  minLikes : Option Nat
  maxLikes : Option Nat
  minComments : Option Nat
  minEngagementRate : Option ℚ
deriving DecidableEq

structure ContentF where
  enabled : Bool
  keywords : Option (List String)
  excludeKeywords : Option (List String)
  minLength : Option Nat
  hasMedia : Option Bool
deriving DecidableEq

structure AuthorsF where
  enabled : Bool
  includeAuthors : Option (List String)
  excludeAuthors : Option (List String)
deriving DecidableEq

structure SortingF where
  sortBy : Option String
  sortOrder : Option String
deriving DecidableEq

/-- The `searchFilters` object: an absent group is `none`. -/
structure SearchFilters where
  dateRange : Option DateRangeF
  engagement : Option EngagementF
  content : Option ContentF
  authors : Option AuthorsF
  sorting : Option SortingF
deriving DecidableEq

def emptySearchFilters : SearchFilters := ⟨none, none, none, none, none⟩

/-- JS truthiness of a numeric criterion field (`undefined` and `0` are
falsy), used by guards like `if (criteria.minLikes && ...)`. -/
def natFieldTruthy : Option Nat → Bool
  | none => false
  | some n => decide (n ≠ 0)

/-- Truthiness of an optional rational criterion field. -/
def ratFieldTruthy : Option ℚ → Bool
  | none => false
  | some q => decide (q ≠ 0)

/-- `s.includes(sub)` via character-list infix. -/
def strIncludes (s sub : String) : Bool :=
  decide (List.IsInfix sub.toList s.toList)

/-- `SmartFilterEngine.filterByDateRange`: with both bounds absent the input
array itself is returned; otherwise a fresh filtered array (`now` models
`Date.now()`). -/
def dateInRange (startDate endDate : Option Int) (now : Int) (p : FPost) : Bool :=
  let s := startDate.getD 0
  let e := endDate.getD now
  decide (s ≤ p.createdAt) && decide (p.createdAt ≤ e)

/-- The predicate of `SmartFilterEngine.filterByEngagement`.  The engagement
rate is `(likes + comments) / likes` when `likes > 0`, else `0`. -/
def engagementPass (c : EngagementF) (p : FPost) : Bool :=
  let likes := p.likes.getD 0
  let comments := p.comments.getD 0
  let rate : ℚ := if likes > 0 then ((likes : ℚ) + (comments : ℚ)) / (likes : ℚ) else 0
  if natFieldTruthy c.minLikes && decide (likes < c.minLikes.getD 0) then false
  else if natFieldTruthy c.maxLikes && decide (likes > c.maxLikes.getD 0) then false
  else if natFieldTruthy c.minComments && decide (comments < c.minComments.getD 0) then false
  else if ratFieldTruthy c.minEngagementRate && decide (rate < c.minEngagementRate.getD 0)
    then false
  else true

/-- The predicate of `SmartFilterEngine.filterByContent`, over
`(title + ' ' + content).toLowerCase()`. -/
def contentPass (c : ContentF) (p : FPost) : Bool :=
  let body := (p.title.getD "" ++ " " ++ p.content.getD "").toLower
  if (match c.keywords with
      | some ks => decide (ks.length > 0) && !(ks.any fun k => strIncludes body k.toLower)
      | none => false) then false
  else if (match c.excludeKeywords with
      | some ks => decide (ks.length > 0) && (ks.any fun k => strIncludes body k.toLower)
      | none => false) then false
  else if natFieldTruthy c.minLength && decide (body.length < c.minLength.getD 0) then false
  else if c.hasMedia.getD false && !p.hasImagePreview then false
  else true

/-- The predicate of `SmartFilterEngine.filterByAuthor`. -/
def authorPass (c : AuthorsF) (p : FPost) : Bool :=
  let an := (p.authorName.getD "").toLower
  let aid := p.authorId.getD ""
  if (match c.includeAuthors with
      | some as => decide (as.length > 0) &&
          !(as.any fun a => strIncludes an a.toLower || decide (aid = a))
      | none => false) then false
  else if (match c.excludeAuthors with
      | some as => decide (as.length > 0) &&
          (as.any fun a => strIncludes an a.toLower || decide (aid = a))
      | none => false) then false
  else true

/-- The comparator value of `SmartFilterEngine.sortPosts` before the
`sortOrder` sign flip (the `date` case is also the `default` case). -/
def sortComparison (sortBy : Option String) (a b : FPost) : Int :=
  match sortBy with
  | some "likes" => (b.likes.getD 0 : Int) - (a.likes.getD 0 : Int)
  | some "comments" => (b.comments.getD 0 : Int) - (a.comments.getD 0 : Int)
  | some "engagement" =>
      ((b.likes.getD 0 + b.comments.getD 0 : Nat) : Int)
        - ((a.likes.getD 0 + a.comments.getD 0 : Nat) : Int)
  | some "alphabetical" =>
      match compare (a.title.getD "") (b.title.getD "") with
      | .lt => -1
      | .eq => 0
      | .gt => 1
  | _ => b.createdAt - a.createdAt

/-- `SmartFilterEngine.sortPosts(posts, criteria)`: `Array.prototype.sort`
with the comparator, stable per the ECMAScript spec, modelled by a stable
merge sort ordered by "comparator value is non-positive". -/
def sortPosts (posts : List FPost) (c : SortingF) : List FPost :=
  posts.mergeSort (fun a b =>
    let comparison := sortComparison c.sortBy a b
    decide ((if c.sortOrder = some "asc" then -comparison else comparison) ≤ 0))

/-- `SearchPresets.getPresetConfig(presetName)`; unknown names yield `{}`.
The preset date strings (`Date.now()` minus 30 resp. 7 days, formatted
`YYYY-MM-DD`) are modelled by their timestamps relative to the `now`
parameter. -/
def getPresetConfig (presetName : String) (now : Int) : SearchFilters :=
  if presetName = "high-engagement" then
    { dateRange := none
      engagement := some ⟨true, some 50, none, some 10, none⟩
      content := none
      authors := none
      sorting := some ⟨some "engagement", some "desc"⟩ }
  else if presetName = "recent-posts" then
    { dateRange := some ⟨true, some (now - 30 * 24 * 60 * 60 * 1000), some now⟩
      engagement := none
      content := none
      authors := none
      sorting := some ⟨some "date", some "desc"⟩ }
  else if presetName = "popular-discussions" then
    { dateRange := none
      engagement := some ⟨true, some 25, none, some 5, none⟩
      content := none
      authors := none
      sorting := some ⟨some "comments", some "desc"⟩ }
  else if presetName = "trending-content" then
    { dateRange := some ⟨true, some (now - 7 * 24 * 60 * 60 * 1000), some now⟩
      engagement := some ⟨true, some 20, none, some 3, none⟩
      content := none
      authors := none
      sorting := some ⟨some "engagement", some "desc"⟩ }
  else emptySearchFilters

/-- The object spread `{ ...searchFilters, ...presetConfig }` in
`processAdvancedFilters`: a key present on the right operand overwrites the
left operand's key. -/
def mergeSpread (sf preset : SearchFilters) : SearchFilters :=
  { dateRange := match preset.dateRange with | some v => some v | none => sf.dateRange
    engagement := match preset.engagement with | some v => some v | none => sf.engagement
    content := match preset.content with | some v => some v | none => sf.content
    authors := match preset.authors with | some v => some v | none => sf.authors
    sorting := match preset.sorting with | some v => some v | none => sf.sorting }

/-- The inputs `processAdvancedFilters(posts, input)` reads. -/
structure FilterInput where
  searchFilters : Option SearchFilters
  searchPresets : Option String

/-- The criteria `processAdvancedFilters` hands to the engine:
`let searchFilters = input.searchFilters || {}` then, when
`input.searchPresets && input.searchPresets !== 'none'`, the spread-merge with
the preset config. -/
def mergedCriteria (inp : FilterInput) (now : Int) : SearchFilters :=
  let sf := inp.searchFilters.getD emptySearchFilters
  match inp.searchPresets with
  | some p => if p ≠ "" ∧ p ≠ "none" then mergeSpread sf (getPresetConfig p now) else sf
  | none => sf

/-! ### Array-identity model for the filter pipeline

JavaScript array mutation matters for the frame property (claim C9):
`[...this.posts]` and `Array.prototype.filter` allocate fresh arrays, while
`Array.prototype.sort` mutates its receiver in place.  Arrays are modelled as
references into a store; the engine's pipeline is re-expressed over the store
so that "never mutates its input" is a provable statement rather than a
modelling assumption. -/

abbrev Store := List (List FPost)

/-- Dereference an array reference (out-of-range reads never happen in the
modelled code; `[]` is a dummy). -/
def getRef (σ : Store) (r : Nat) : List FPost :=
  (σ[r]?).getD []

/-- Allocate a fresh array holding `v`. -/
def allocRef (σ : Store) (v : List FPost) : Store × Nat :=
  (σ ++ [v], σ.length)

/-- Overwrite the array behind `r` in place (the effect of `sort`). -/
def setRef (σ : Store) (r : Nat) (v : List FPost) : Store :=
  σ.set r v

/-- `filterByDateRange` on the store: with both bounds absent the function
returns its argument array itself; otherwise `posts.filter(...)` allocates. -/
def filterByDateRangeS (σ : Store) (r : Nat) (startDate endDate : Option Int) (now : Int) :
    Store × Nat :=
  if startDate.isNone && endDate.isNone then (σ, r)
  else allocRef σ ((getRef σ r).filter (dateInRange startDate endDate now))

/-- `if (searchFilters.dateRange?.enabled) filteredPosts = this.filterByDateRange(...)`. -/
def dateStep (now : Int) (sf : SearchFilters) (σr : Store × Nat) : Store × Nat :=
  match sf.dateRange with
  | some d => if d.enabled then filterByDateRangeS σr.1 σr.2 d.startDate d.endDate now else σr
  | none => σr

/-- `if (searchFilters.engagement?.enabled) filteredPosts = this.filterByEngagement(...)`. -/
def engagementStep (sf : SearchFilters) (σr : Store × Nat) : Store × Nat :=
  match sf.engagement with
  | some c => if c.enabled then allocRef σr.1 ((getRef σr.1 σr.2).filter (engagementPass c))
      else σr
  | none => σr

/-- `if (searchFilters.content?.enabled) filteredPosts = this.filterByContent(...)`. -/
def contentStep (sf : SearchFilters) (σr : Store × Nat) : Store × Nat :=
  match sf.content with
  | some c => if c.enabled then allocRef σr.1 ((getRef σr.1 σr.2).filter (contentPass c))
      else σr
  | none => σr

/-- `if (searchFilters.authors?.enabled) filteredPosts = this.filterByAuthor(...)`. -/
def authorsStep (sf : SearchFilters) (σr : Store × Nat) : Store × Nat :=
  match sf.authors with
  | some c => if c.enabled then allocRef σr.1 ((getRef σr.1 σr.2).filter (authorPass c))
      else σr
  | none => σr

/-- `if (searchFilters.sorting) filteredPosts = this.sortPosts(filteredPosts, ...)`:
`Array.prototype.sort` rearranges its receiver in place and returns it. -/
def sortStep (sf : SearchFilters) (σr : Store × Nat) : Store × Nat :=
  match sf.sorting with
  | some sp => (setRef σr.1 σr.2 (sortPosts (getRef σr.1 σr.2) sp), σr.2)
  | none => σr

/-- `SmartFilterEngine.applyFilters(searchFilters)` on the store.  `self` is
the array behind `this.posts`; the first step is the spread copy
`let filteredPosts = [...this.posts]`, then the four filter groups reassign
`filteredPosts` in the fixed order of the source, and sorting mutates the
current `filteredPosts` in place.  The returned reference is what the caller
receives. -/
def applyFiltersS (σ : Store) (self : Nat) (sf : SearchFilters) (now : Int) :
    Store × Nat :=
  sortStep sf (authorsStep sf (contentStep sf (engagementStep sf
    (dateStep now sf (allocRef σ (getRef σ self))))))

/-- `Object.values(searchFilters).some(f => f && f.enabled === true)`:
the sorting group carries no `enabled` key. -/
def hasEnabledFilters (sf : SearchFilters) : Bool :=
  (match sf.dateRange with | some d => d.enabled | none => false) ||
  (match sf.engagement with | some c => c.enabled | none => false) ||
  (match sf.content with | some c => c.enabled | none => false) ||
  (match sf.authors with | some c => c.enabled | none => false)

/-- `processAdvancedFilters(posts, input)` on the store (the returned
analytics report is read-only over the two arrays and is omitted).  With no
enabled group and no sorting the input array itself is returned; otherwise the
engine runs on the merged criteria. -/
def processAdvancedFiltersS (σ : Store) (postsRef : Nat) (inp : FilterInput) (now : Int) :
    Store × Nat :=
  let sf := mergedCriteria inp now
  if !hasEnabledFilters sf && sf.sorting = none then (σ, postsRef)
  else applyFiltersS σ postsRef sf now

/-! ### Cookie validation and diagnostic records -/

/-- An input cookie object: `value = none` models a missing (`undefined`)
`value` field; a missing `name` key and `name: ""` are both falsy and are
collapsed to `""`. -/
structure Cookie where
  name : String
  value : Option String
  domain : Option String
deriving DecidableEq

/-- `JSON.stringify(cookie)` for the cookie objects above, with the usual
`name, value, domain` insertion order; fields holding `undefined` are omitted.
(String contents are assumed not to need JSON escaping, which holds for every
input used here.) -/
def stringifyCookie (c : Cookie) : String :=
  "\x7b\"name\":\"" ++ c.name ++ "\"" ++
    (match c.value with
     | some v => ",\"value\":\"" ++ v ++ "\""
     | none => "") ++
    (match c.domain with
     | some d => ",\"domain\":\"" ++ d ++ "\""
     | none => "") ++ "\x7d"

/-- `validateSkoolCookies(cookies)` from the CheerioCrawler auth module:
every inner throw is re-wrapped by the outer catch into
`ValidationError('Cookie validation failed: ' + error.message)`.  The
required-cookie branch calls `console.warning`, which does not exist in Node,
so a missing `auth_token` raises a `TypeError` that the catch also re-wraps.
A structurally invalid cookie (falsy `name` or `undefined` `value`) is
reported with `JSON.stringify(cookie)` embedded in the message. -/
def validateSkoolCookies (cookies : List Cookie) : Except String Unit :=
  if cookies.length = 0 then
    Except.error "Cookie validation failed: Cookies array is empty or invalid"
  else if !((cookies.map Cookie.name).contains "auth_token") then
    Except.error "Cookie validation failed: console.warning is not a function"
  else
    match cookies.find? (fun c => c.name = "" || c.value.isNone) with
    | some c =>
        Except.error ("Cookie validation failed: Invalid cookie structure: "
          ++ stringifyCookie c)
    | none => Except.ok ()

/-- The scraper's `initialize()` wraps any thrown message as
`Scraper initialization failed: ...`; `main.js`'s `handleScrapingError` then
stores `{ error: error.message, ... }` in the key-value side-store.  This is
the `error` field of the stored diagnostic record after a cookie-validation
failure (`none`: validation passed, nothing stored). -/
def cookieFailureRecord (cookies : List Cookie) : Option String :=
  match validateSkoolCookies cookies with
  | Except.error m => some ("Scraper initialization failed: " ++ m)
  | Except.ok _ => none

/-! ### Concrete scenario inputs -/

/-- A minimal raw post object, as the Skool API delivers them. -/
def mkPostObj (s : String) : JsValue := jobj [("id", jstr s)]

/-- A page response: `pageProps.posts` plus the `hasNextPage` flag. -/
def mkPage (ids : List String) (next : Bool) : JsValue :=
  jobj [("pageProps", jobj [("posts", jarr (ids.map mkPostObj)), ("hasNextPage", jbool next)])]

/-- Ten post ids for page `k`. -/
def idsPage (k : Nat) : List String :=
  (List.range 10).map (fun i => "p" ++ toString k ++ "-" ++ toString i)

/-- Scenario-A-style server: three pages of 10 posts each. -/
def server3 : Nat → JsValue := fun p =>
  if p = 1 then mkPage (idsPage 1) true
  else if p = 2 then mkPage (idsPage 2) true
  else if p = 3 then mkPage (idsPage 3) false
  else jnull

/-- Input with `maxItems = 25` (comments off). -/
def inpMax25 : ApiInput := ⟨25, false, 0, "community"⟩

/-- A single-page server with 31 posts and no further pages. -/
def server31 : Nat → JsValue := fun p =>
  if p = 1 then mkPage ((List.range 31).map (fun i => "q" ++ toString i)) false
  else jnull

/-- Input with `maxItems = 0` (the documented "unlimited"). -/
def inpMax0 : ApiInput := ⟨0, false, 0, "community"⟩

/-- A page source whose rendered height keeps growing and which always shows
1000 items (used to check that the render strategy never stops on an item
count when `maxItems = 0`). -/
def growingSrc : Nat → ScrollObs := fun t => ⟨t + 1, 1000, false⟩

/-- A two-page server that re-returns the same post id on both pages. -/
def serverDup : Nat → JsValue := fun p =>
  if p = 1 then mkPage ["a"] true
  else if p = 2 then mkPage ["a"] false
  else jnull

/-- A two-page server with pairwise distinct ids. -/
def serverUniq : Nat → JsValue := fun p =>
  if p = 1 then mkPage ["a", "b"] true
  else if p = 2 then mkPage ["c"] false
  else jnull

/-- Input with a large `maxItems` (comments off). -/
def inpMax100 : ApiInput := ⟨100, false, 0, "community"⟩

/-- The adversarial page source for `smartScroll`: never grows, and the
load-more click always succeeds. -/
def advSrc : Nat → ScrollObs := fun _ => ⟨0, 0, true⟩

/-- A comment element with three children whose second one fails to parse. -/
def c5parent : CElem :=
  CElem.mk 0 true false
    [CElem.mk 1 true false [], CElem.mk 2 false false [], CElem.mk 3 true false []]

/-- A comment element whose single child parses but whose child's own subtree
query throws. -/
def c5queryFail : CElem :=
  CElem.mk 0 true false [CElem.mk 7 true true [CElem.mk 8 true false []]]

/-- A two-level comment thread for the depth-bound witness. -/
def c8els : List CElem :=
  [CElem.mk 1 true false [CElem.mk 2 true false []]]

/-- Caller-supplied engagement criteria that the `high-engagement` preset
also sets. -/
def callerEng : EngagementF := ⟨true, some 1, none, none, none⟩

def callerSF : SearchFilters :=
  { dateRange := none, engagement := some callerEng, content := none,
    authors := none, sorting := none }

def c2inp : FilterInput := ⟨some callerSF, some "high-engagement"⟩

/-- Cookie sets that differ only in the `value` field of a structurally
invalid cookie. -/
def c4cookies (v : String) : List Cookie :=
  [⟨"auth_token", some "tokenvalue", some ".skool.com"⟩, ⟨"", some v, none⟩]

/-- A one-post store for the frame-property witness. -/
def c9post : FPost := ⟨some "t", some "c", 5, some 3, some 2, some "a", some "aid", false⟩

def c9store : Store := [[c9post]]

def c9inp : FilterInput := ⟨some ⟨none, none, none, none, some ⟨some "likes", some "desc"⟩⟩, none⟩

/-! ### Helper lemmas -/

theorem jsOrO_falsy_left {a b : Option JsValue} (h : optTruthy a = false) : jsOrO a b = b := by
  simp [jsOrO, h]

theorem jsOrV_falsy {a : Option JsValue} {d : JsValue} (h : optTruthy a = false) :
    jsOrV a d = d := by
  cases a with
  | none => rfl
  | some v => simp only [optTruthy] at h; simp [jsOrV, h]

theorem postsLocation_of_not_found {j : JsValue} (h : hasPostsLocation j = false) :
    postsLocation j = jarr [] := by
  unfold hasPostsLocation at h
  simp only [Bool.or_eq_false_iff] at h
  obtain ⟨⟨⟨⟨⟨h1, h2⟩, h3⟩, h4⟩, h5⟩, h6⟩ := h
  unfold postsLocation
  simp [h1, h2, h3, h4, h5, h6]

/-! ### Claim C1 -/

/-- Claim C1 (code bug): with `maxItems = 25` and three server pages of 10
posts each, the cursor-paginated strategy emits all 30 posts: the per-request
`itemCount` restarts at 0 on every page, so the cap never binds across pages
(the spec's Scenario A requires exactly 25). -/
theorem c1_code_theorem :
    (runApi inpMax25 "community-a" "https://www.skool.com/community-a" server3 10 1).length = 30
      ∧ 25 < (runApi inpMax25 "community-a" "https://www.skool.com/community-a"
          server3 10 1).length := by
  constructor
  · rfl
  · decide

/-! ### Claim C7 -/

/-- Claim C7 (code bug): with the documented "unlimited" setting
`maxItems = 0`, `handleApiRequest` evaluates `this.input.maxItems || 30` to 30
and emits only 30 of the 31 available posts; the render strategy, whose item
check is guarded by `maxItems > 0`, keeps scrolling to its attempt cap and
reports all 1000 items. -/
theorem c7_code_theorem :
    (runApi inpMax0 "community-a" "https://www.skool.com/community-a" server31 5 1).length = 30
      ∧ handleInfiniteScrollRun growingSrc 0 205 initScroll = some 1000 := by
  constructor
  · rfl
  · rfl

/-! ### Claim C3 -/

/-- Claim C3 counterexample: a later page legitimately re-returns the already
seen post id `"a"`, and the cursor-paginated strategy emits it a second time -
no deduplication happens before emission, so `Post.id` is not unique in the
target's output sequence. -/
theorem c3_counterexample :
    outIds (runApi inpMax100 "community-a" "https://www.skool.com/community-a" serverDup 5 1)
        = [some "a", some "a"]
      ∧ ¬ (outIds (runApi inpMax100 "community-a" "https://www.skool.com/community-a"
          serverDup 5 1)).Nodup := by
  constructor
  · rfl
  · rw [show outIds (runApi inpMax100 "community-a" "https://www.skool.com/community-a"
        serverDup 5 1) = [some "a", some "a"] from rfl]
    decide

/-! ### Claim C10 -/

/-- Claim C10 counterexample: a well-formed JSON response with no recognized
posts location still passes `pageProps.hasNextPage`, `totalPages` and
`currentPage` through, so the parser does not return the claimed
`totalPages = 0 / hasNextPage = false / currentPage = 1` record: a page like
this keeps cursor traversal going instead of ending it. -/
theorem c10_counterexample :
    hasPostsLocation (jobj [("pageProps", jobj [("hasNextPage", jbool true),
        ("totalPages", jnum 7), ("currentPage", jnum 3)])]) = false
      ∧ (parseSkoolApiResponse (some (jobj [("pageProps", jobj [("hasNextPage", jbool true),
          ("totalPages", jnum 7), ("currentPage", jnum 3)])]))).posts = jarr []
      ∧ (parseSkoolApiResponse (some (jobj [("pageProps", jobj [("hasNextPage", jbool true),
          ("totalPages", jnum 7), ("currentPage", jnum 3)])]))).hasNextPage = jbool true
      ∧ (parseSkoolApiResponse (some (jobj [("pageProps", jobj [("hasNextPage", jbool true),
          ("totalPages", jnum 7), ("currentPage", jnum 3)])]))).totalPages = jnum 7
      ∧ (parseSkoolApiResponse (some (jobj [("pageProps", jobj [("hasNextPage", jbool true),
          ("totalPages", jnum 7), ("currentPage", jnum 3)])]))).hasNextPage ≠ jbool false := by
  refine ⟨rfl, rfl, rfl, rfl, ?_⟩
  intro h
  have hb : jbool true = jbool false := by
    rw [show (parseSkoolApiResponse (some (jobj [("pageProps", jobj [("hasNextPage", jbool true),
      ("totalPages", jnum 7), ("currentPage", jnum 3)])]))).hasNextPage = jbool true from rfl]
      at h
    exact h
  exact Bool.noConfusion (JsValue.jbool.inj hb)

/-- Whether every pagination-metadata key the parser reads from `pageProps`
(`totalPages`, `maxPage`, `hasNextPage`, `hasMore`, `currentPage`, `page`,
`pageNumber`) is absent or falsy. -/
def paginationKeysFalsy (data : JsValue) : Bool :=
  let pp := pagePropsOf data
  !optTruthy (member pp "totalPages") && !optTruthy (member pp "maxPage") &&
  !optTruthy (member pp "hasNextPage") && !optTruthy (member pp "hasMore") &&
  !optTruthy (member pp "currentPage") && !optTruthy (member pp "page") &&
  !optTruthy (member pp "pageNumber")

/-- Claim C10 amended: `parseSkoolApiResponse` is total; an unparseable string
yields the full default record; and for parseable JSON with no recognized
posts location `posts = []`, while `totalPages = 0`, `hasNextPage = false` and
`currentPage = 1` additionally require the corresponding `pageProps` keys to be
absent or falsy. -/
theorem c10_amended :
    parseSkoolApiResponse none = defaultApiData
      ∧ (∀ j : JsValue, hasPostsLocation j = false →
          (parseSkoolApiResponse (some j)).posts = jarr [])
      ∧ (∀ j : JsValue, hasPostsLocation j = false → paginationKeysFalsy j = true →
          (parseSkoolApiResponse (some j)).posts = jarr []
            ∧ (parseSkoolApiResponse (some j)).totalPages = jnum 0
            ∧ (parseSkoolApiResponse (some j)).hasNextPage = jbool false
            ∧ (parseSkoolApiResponse (some j)).currentPage = jnum 1) := by
  have posts_empty : ∀ j : JsValue, hasPostsLocation j = false →
      (parseSkoolApiResponse (some j)).posts = jarr [] := by
    intro j h
    cases j with
    | jnull => rfl
    | jbool b => simp [parseSkoolApiResponse, postsLocation_of_not_found h, jsOrV, truthy]
    | jnum n => simp [parseSkoolApiResponse, postsLocation_of_not_found h, jsOrV, truthy]
    | jstr s => simp [parseSkoolApiResponse, postsLocation_of_not_found h, jsOrV, truthy]
    | jarr xs => simp [parseSkoolApiResponse, postsLocation_of_not_found h, jsOrV, truthy]
    | jobj fs => simp [parseSkoolApiResponse, postsLocation_of_not_found h, jsOrV, truthy]
  refine ⟨rfl, posts_empty, ?_⟩
  intro j h hm
  unfold paginationKeysFalsy at hm
  simp only [Bool.and_eq_true, Bool.not_eq_true'] at hm
  obtain ⟨⟨⟨⟨⟨⟨m1, m2⟩, m3⟩, m4⟩, m5⟩, m6⟩, m7⟩ := hm
  refine ⟨posts_empty j h, ?_, ?_, ?_⟩ <;>
    cases j with
    | jnull => rfl
    | jbool b =>
        simp [parseSkoolApiResponse, jsOrO_falsy_left, jsOrV_falsy, m1, m2, m3, m4, m5, m6, m7]
    | jnum n =>
        simp [parseSkoolApiResponse, jsOrO_falsy_left, jsOrV_falsy, m1, m2, m3, m4, m5, m6, m7]
    | jstr s =>
        simp [parseSkoolApiResponse, jsOrO_falsy_left, jsOrV_falsy, m1, m2, m3, m4, m5, m6, m7]
    | jarr xs =>
        simp [parseSkoolApiResponse, jsOrO_falsy_left, jsOrV_falsy, m1, m2, m3, m4, m5, m6, m7]
    | jobj fs =>
        simp [parseSkoolApiResponse, jsOrO_falsy_left, jsOrV_falsy, m1, m2, m3, m4, m5, m6, m7]

/-- Claim C10 amended, instantiated: the empty JSON object has no posts
location and falsy pagination keys, and the parser gives it the claimed
defaults. -/
theorem c10_witness :
    (parseSkoolApiResponse (some (jobj []))).posts = jarr []
      ∧ (parseSkoolApiResponse (some (jobj []))).totalPages = jnum 0
      ∧ (parseSkoolApiResponse (some (jobj []))).hasNextPage = jbool false
      ∧ (parseSkoolApiResponse (some (jobj []))).currentPage = jnum 1 :=
  c10_amended.2.2 (jobj []) (by decide) (by decide)

/-! ### Claim C4 -/

/-- Claim C4 (code bug): two cookie sets that differ only in the secret
`value` of a structurally invalid cookie produce different diagnostic
records, and the stored record spells the secret out: the `ValidationError`
message embeds `JSON.stringify(cookie)` and `handleScrapingError` writes
that message to the key-value side-store. -/
theorem c4_code_theorem :
    cookieFailureRecord (c4cookies "hunter2")
        = some ("Scraper initialization failed: Cookie validation failed: "
            ++ "Invalid cookie structure: \x7b\"name\":\"\",\"value\":\"hunter2\"\x7d")
      ∧ cookieFailureRecord (c4cookies "hunter2") ≠ cookieFailureRecord (c4cookies "hunter3") := by
  constructor
  · rfl
  · decide

/-! ### Claim C2 -/

/-- Claim C2 counterexample: the caller explicitly sets
`engagement = { enabled: true, minLikes: 1 }` and also selects the
`high-engagement` preset; the merged criteria carry the preset's engagement
group (`minLikes: 50, minComments: 10`), not the caller's - the spread
`{ ...searchFilters, ...presetConfig }` lets the preset win. -/
theorem c2_counterexample :
    (mergedCriteria c2inp 0).engagement = some ⟨true, some 50, none, some 10, none⟩
      ∧ (mergedCriteria c2inp 0).engagement ≠ some callerEng := by
  constructor
  · rfl
  · decide

/-- Claim C2 amended: the merge is field-by-field at the criteria-group level
with the preset winning: every group the preset defines replaces the caller's
group (even when the caller set it), and the caller's groups survive exactly
where the preset leaves them unset - shown for the `high-engagement` preset
(engagement and sorting come from the preset; dateRange, content and authors
stay the caller's) and the `trending-content` preset (dateRange, engagement
and sorting come from the preset; content and authors stay the caller's). -/
theorem c2_amended : ∀ (sf : SearchFilters) (now : Int),
    (mergedCriteria ⟨some sf, some "high-engagement"⟩ now).engagement
        = (getPresetConfig "high-engagement" now).engagement
      ∧ (mergedCriteria ⟨some sf, some "high-engagement"⟩ now).sorting
        = (getPresetConfig "high-engagement" now).sorting
      ∧ (mergedCriteria ⟨some sf, some "high-engagement"⟩ now).dateRange = sf.dateRange
      ∧ (mergedCriteria ⟨some sf, some "high-engagement"⟩ now).content = sf.content
      ∧ (mergedCriteria ⟨some sf, some "high-engagement"⟩ now).authors = sf.authors
      ∧ (mergedCriteria ⟨some sf, some "trending-content"⟩ now).dateRange
        = (getPresetConfig "trending-content" now).dateRange
      ∧ (mergedCriteria ⟨some sf, some "trending-content"⟩ now).engagement
        = (getPresetConfig "trending-content" now).engagement
      ∧ (mergedCriteria ⟨some sf, some "trending-content"⟩ now).sorting
        = (getPresetConfig "trending-content" now).sorting
      ∧ (mergedCriteria ⟨some sf, some "trending-content"⟩ now).content = sf.content
      ∧ (mergedCriteria ⟨some sf, some "trending-content"⟩ now).authors = sf.authors := by
  intro sf now
  refine ⟨?_, ?_, ?_, ?_, ?_, ?_, ?_, ?_, ?_, ?_⟩ <;>
    simp [mergedCriteria, mergeSpread, getPresetConfig]

/-! ### Claim C5 -/

/-- Claim C5 counterexample: a comment with three child elements whose second
one throws during extraction.  The claim (spec Scenario D) requires the
returned tree to keep all 3 children, the second with empty `children`; the
code's `continue` drops the failing child instead, leaving 2 children. -/
theorem c5_counterexample :
    (extractNestedComments 5 c5parent).length = 2
      ∧ (extractNestedComments 5 c5parent).map CommentOut.cid = [1, 3] := by
  have h : extractNestedComments 5 c5parent
      = [CommentOut.mk 1 (extractNestedComments 4 (CElem.mk 1 true false [])),
         CommentOut.mk 3 (extractNestedComments 4 (CElem.mk 3 true false []))] := by
    simp [c5parent, extractNestedComments, extractNestedList, CElem.queryFails,
      CElem.parseOk, CElem.children, CElem.cid]
  rw [h]
  simp [CommentOut.cid]

theorem extractNested_of_queryFails {d : Nat} {e : CElem} (h : e.queryFails = true) :
    extractNestedComments d e = [] := by
  cases d with
  | zero => simp [extractNestedComments]
  | succ d => simp [extractNestedComments, h]

theorem extractNestedList_cids (d : Nat) (es : List CElem) :
    (extractNestedList d es).map CommentOut.cid
      = (es.filter (fun c => c.parseOk)).map CElem.cid := by
  induction es with
  | nil => simp [extractNestedList]
  | cons c cs ih =>
      cases hc : c.parseOk <;>
        simp [extractNestedList, hc, ih, CommentOut.cid, List.filter_cons]

theorem extractNestedList_keeps_failed_child {d : Nat} {es : List CElem} {c : CElem}
    (hc : c ∈ es) (hp : c.parseOk = true) (hq : c.queryFails = true) :
    CommentOut.mk c.cid [] ∈ extractNestedList d es := by
  induction es with
  | nil => cases hc
  | cons a as ih =>
      rcases List.mem_cons.mp hc with h | h
      · subst h
        simp [extractNestedList, hp, extractNested_of_queryFails hq]
      · have hmem := ih h
        simp only [extractNestedList]
        exact List.mem_append_right _ hmem

/-- Claim C5 amended: when the wholesale expansion of a node's reply list
fails (`element.$$` throws), that node is returned with an empty `children`
sequence, and neither its siblings nor the parent are affected: the returned
children of any non-failing node are exactly its parse-successful child
elements in order, with a child whose own subtree query fails appearing with
empty `children`.  A child whose own `parseCommentData` throws is however
dropped from the list (the counterexample), not kept with empty children. -/
theorem c5_amended : ∀ (d : Nat) (e : CElem), 1 ≤ d → e.queryFails = false →
    ((extractNestedComments d e).map CommentOut.cid
        = (e.children.filter (fun c => c.parseOk)).map CElem.cid)
      ∧ (∀ c ∈ e.children, c.parseOk = true → c.queryFails = true →
          CommentOut.mk c.cid [] ∈ extractNestedComments d e) := by
  intro d e hd hq
  obtain ⟨d', rfl⟩ : ∃ d', d = d' + 1 := ⟨d - 1, by omega⟩
  have hunf : extractNestedComments (d' + 1) e = extractNestedList d' e.children := by
    simp [extractNestedComments, hq]
  constructor
  · rw [hunf]
    exact extractNestedList_cids _ _
  · intro c hc hp hqf
    rw [hunf]
    exact extractNestedList_keeps_failed_child hc hp hqf

/-- Claim C5 amended, instantiated: a parse-successful child whose own subtree
query throws is kept with empty `children` and is the only child returned. -/
theorem c5_witness :
    CommentOut.mk 7 [] ∈ extractNestedComments 2 c5queryFail
      ∧ (extractNestedComments 2 c5queryFail).map CommentOut.cid = [7] := by
  constructor
  · refine (c5_amended 2 c5queryFail (by norm_num) rfl).2
      (CElem.mk 7 true true [CElem.mk 8 true false []]) ?_ rfl rfl
    simp [c5queryFail, CElem.children]
  · rw [(c5_amended 2 c5queryFail (by norm_num) rfl).1]
    rfl

/-! ### Claim C8 -/

theorem commentDepthList_le {rs : List CommentOut} {k : Nat}
    (h : ∀ x ∈ rs, commentDepth x ≤ k) : commentDepthList rs ≤ k := by
  induction rs with
  | nil => simp [commentDepthList]
  | cons c cs ih =>
      simp only [commentDepthList, Nat.max_le]
      exact ⟨h c (List.mem_cons_self c cs), ih (fun x hx => h x (List.mem_cons_of_mem c hx))⟩

theorem extractNested_depth_le :
    ∀ (d : Nat) (e : CElem) (c : CommentOut), c ∈ extractNestedComments d e →
      commentDepth c ≤ d := by
  intro d
  induction d with
  | zero =>
      intro e c h
      simp [extractNestedComments] at h
  | succ d ih =>
      have hlist : ∀ (es : List CElem) (c : CommentOut),
          c ∈ extractNestedList d es → commentDepth c ≤ d + 1 := by
        intro es
        induction es with
        | nil =>
            intro c h
            simp [extractNestedList] at h
        | cons a as ihl =>
            intro c h
            simp only [extractNestedList] at h
            rcases List.mem_append.mp h with h | h
            · split at h
              · have hc := List.mem_singleton.mp h
                subst hc
                simp only [commentDepth]
                have hb : commentDepthList (extractNestedComments d a) ≤ d :=
                  commentDepthList_le (fun x hx => ih a x hx)
                omega
              · cases h
            · exact ihl c h
      intro e c h
      cases hq : e.queryFails with
      | true => rw [extractNested_of_queryFails hq] at h; cases h
      | false =>
          rw [show extractNestedComments (d + 1) e = extractNestedList d e.children by
            simp [extractNestedComments, hq]] at h
          exact hlist e.children c h

/-- Claim C8: for `maxDepth ≥ 1` no comment in the extracted forest is nested
more than `maxDepth` levels deep (top-level comments are level 1): the
top-level pass hands `maxDepth - 1` to `extractNestedComments`, whose depth
parameter strictly decreases and stops at 0. -/
theorem c8_theorem : ∀ (pageOk : Bool) (els : List CElem) (maxDepth : Nat),
    1 ≤ maxDepth → ∀ c ∈ extractCommentsForPost pageOk els maxDepth,
      commentDepth c ≤ maxDepth := by
  intro pk els md hmd c hc
  unfold extractCommentsForPost at hc
  split at hc
  · cases hc
  · obtain ⟨e, _, hfe⟩ := List.mem_filterMap.mp hc
    split at hfe
    · have hce := Option.some.inj hfe
      subst hce
      simp only [commentDepth]
      have hb : commentDepthList (extractNestedComments (md - 1) e) ≤ md - 1 :=
        commentDepthList_le (fun x hx => extractNested_depth_le (md - 1) e x hx)
      omega
    · cases hfe

/-- Claim C8, instantiated at a two-level thread with `maxDepth = 3`. -/
theorem c8_witness : commentDepth (CommentOut.mk 1 [CommentOut.mk 2 []]) ≤ 3 := by
  have hr : extractCommentsForPost true c8els 3 = [CommentOut.mk 1 [CommentOut.mk 2 []]] := by
    simp [extractCommentsForPost, c8els, extractNestedComments, extractNestedList,
      CElem.parseOk, CElem.queryFails, CElem.children, CElem.cid]
  exact c8_theorem true c8els 3 (by norm_num) (CommentOut.mk 1 [CommentOut.mk 2 []])
    (by rw [hr]; exact List.mem_singleton.mpr rfl)

/-! ### Claim C6 -/

/-- Termination potential of `handleInfiniteScroll`'s loop: every iteration
that reaches the loop body again strictly decreases it. -/
def scrollPhi (s : ScrollState) : Nat :=
  2 * (200 - s.attempts) + s.stable

theorem scrollStep_decreases {src : Nat → ScrollObs} {maxItems : Nat}
    {s s' : ScrollState} (ha : s.attempts < 200) (h : scrollStep src maxItems s = Sum.inr s') :
    scrollPhi s' < scrollPhi s ∧ s'.attempts ≤ 200 := by
  unfold scrollStep at h
  by_cases h1 : (decide (maxItems > 0) && decide ((src s.t).items ≥ maxItems)) = true
  · rw [if_pos h1] at h
    cases h
  · rw [if_neg h1] at h
    by_cases h2 : (src s.t).height = s.prevHeight
    · rw [if_pos h2] at h
      by_cases h3 : s.stable + 1 ≥ 3
      · rw [if_pos h3] at h
        by_cases h4 : (src s.t).loadMoreOk = true
        · rw [if_pos h4] at h
          have hs := Sum.inr.inj h
          subst hs
          simp only [scrollPhi]
          omega
        · rw [if_neg h4] at h
          cases h
      · rw [if_neg h3] at h
        have hs := Sum.inr.inj h
        subst hs
        simp only [scrollPhi]
        omega
    · rw [if_neg h2] at h
      have hs := Sum.inr.inj h
      subst hs
      simp only [scrollPhi]
      omega

theorem handleInfiniteScrollRun_totalAux (src : Nat → ScrollObs) (maxItems : Nat) :
    ∀ (fuel : Nat) (s : ScrollState), scrollPhi s < fuel → s.attempts ≤ 200 →
      (handleInfiniteScrollRun src maxItems fuel s).isSome = true := by
  intro fuel
  induction fuel with
  | zero => intro s h _; omega
  | succ fuel ih =>
      intro s h h200
      unfold handleInfiniteScrollRun
      split
      · rfl
      · rename_i hlt
        have ha : s.attempts < 200 := by omega
        cases hstep : scrollStep src maxItems s with
        | inl n => rfl
        | inr s' =>
            obtain ⟨hphi, h200'⟩ := scrollStep_decreases ha hstep
            exact ih s' (by omega) h200'

/-- Claim C6 amended: `handleInfiniteScroll` does terminate within a fixed
hard cap for every page source - at most 200 scroll attempts, hence at most
400 loop iterations (fuel 401 always suffices).  `smartScroll`, by contrast,
has no such cap (see the counterexample). -/
theorem c6_amended : ∀ (src : Nat → ScrollObs) (maxItems : Nat),
    (handleInfiniteScrollRun src maxItems 401 initScroll).isSome = true := by
  intro src maxItems
  exact handleInfiniteScrollRun_totalAux src maxItems 401 initScroll (by decide) (by decide)

theorem smartStep_no_exit {src : Nat → ScrollObs} {adaptive : Bool} {s : SmartState}
    (hl : (src s.t).loadMoreOk = true) :
    ∃ s', smartStep src 0 adaptive s = Sum.inr s' := by
  unfold smartStep
  rw [if_neg (by simp)]
  simp only [ge_iff_le]
  repeat' split
  all_goals
    first
      | exact ⟨_, rfl⟩
      | exact absurd hl (by assumption)

theorem smartStep_adv_continues (s : SmartState) :
    ∃ s', smartStep advSrc 0 true s = Sum.inr s' :=
  smartStep_no_exit rfl

theorem smartScrollRun_adv_none : ∀ (fuel : Nat) (s : SmartState),
    smartScrollRun advSrc 0 true fuel s = none := by
  intro fuel
  induction fuel with
  | zero => intro s; rfl
  | succ fuel ih =>
      intro s
      obtain ⟨s', hs⟩ := smartStep_adv_continues s
      unfold smartScrollRun
      rw [hs]
      exact ih s'

/-- Claim C6 counterexample: on a page whose observable state never grows and
whose load-more click always succeeds (exactly the "endlessly
load-more-succeeding" source the claim covers), `smartScroll`'s
`while (true)` loop never terminates - no finite tick budget completes it, so
no fixed hard cap on total ticks exists for that implementation. -/
theorem c6_counterexample :
    ¬ ∃ fuel : Nat, (smartScrollRun advSrc 0 true fuel initSmart).isSome = true := by
  rintro ⟨fuel, h⟩
  rw [smartScrollRun_adv_none fuel initSmart] at h
  cases h

/-! ### Claim C3, amended side -/

theorem processPostsLoop_ids_sublist (inp : ApiInput) (cn cu : String) (maxI : Nat) :
    ∀ (l : List JsValue) (n : Nat),
      List.Sublist (outIds (processPostsLoop inp cn cu maxI l n).1) (l.filterMap candidateId) := by
  intro l
  induction l with
  | nil =>
      intro n
      simp [processPostsLoop, outIds]
  | cons p rest ih =>
      intro n
      rw [List.filterMap_cons]
      unfold processPostsLoop
      split
      · exact List.nil_sublist _
      · cases hext : extractPostData p with
        | none =>
            have hpp : processPost inp cn cu p = none := by
              unfold processPost
              rw [hext]
            rw [hpp]
            simp only [candidateId, hext, Option.map_none']
            exact ih n
        | some post =>
            have hpp : processPost inp cn cu p
                = some { post := post, communityName := cn, communityUrl := cu,
                         tab := inp.tab,
                         comments := if inp.includeComments && optTruthy (member p "comments")
                           then some (processComments (jsOrV (member p "comments") (jarr []))
                             inp.commentsLimit)
                           else none } := by
              unfold processPost
              rw [hext]
            rw [hpp]
            simp only [candidateId, hext, Option.map_some']
            simp only [outIds, List.map_cons]
            exact List.Sublist.cons₂ _ (ih (n + 1))

theorem hasCommunitytAccess_eq_true (a : ApiData) : hasCommunitytAccess a = true := by
  unfold hasCommunitytAccess
  split <;> rfl

theorem handleApiRequest_ids_sublist {inp : ApiInput} {cn cu : String} {j : JsValue}
    {emitted : List ProcessedPost} {cont : Bool}
    (h : handleApiRequest inp cn cu j = some (emitted, cont)) :
    List.Sublist (outIds emitted) (pageCandidateIds j) := by
  simp only [handleApiRequest, hasCommunitytAccess_eq_true, Bool.true_eq_false,
    if_false] at h
  simp only [pageCandidateIds]
  cases he : elemsOf (jsOrV (some (parseSkoolApiResponse (some j)).posts) (jarr [])) with
  | none => rw [he] at h; cases h
  | some l =>
      rw [he] at h
      simp only [Option.some.injEq, Prod.mk.injEq] at h
      obtain ⟨hem, _⟩ := h
      rw [← hem]
      exact processPostsLoop_ids_sublist inp cn cu _ l 0

theorem runApi_ids_sublist (inp : ApiInput) (cn cu : String) (server : Nat → JsValue) :
    ∀ (fuel page : Nat),
      List.Sublist (outIds (runApi inp cn cu server fuel page))
        (apiCandidateIds server fuel page) := by
  intro fuel
  induction fuel with
  | zero => intro page; exact List.nil_sublist _
  | succ fuel ih =>
      intro page
      unfold runApi apiCandidateIds
      cases hh : handleApiRequest inp cn cu (server page) with
      | none => exact List.nil_sublist _
      | some pr =>
          obtain ⟨emitted, cont⟩ := pr
          have h1 : List.Sublist (outIds emitted) (pageCandidateIds (server page)) :=
            handleApiRequest_ids_sublist hh
          have h2 : List.Sublist (outIds (if cont then runApi inp cn cu server fuel (page + 1)
              else [])) (apiCandidateIds server fuel (page + 1)) := by
            cases cont with
            | true => exact ih (page + 1)
            | false => exact List.nil_sublist _
          have hsplit : outIds (emitted ++ (if cont then runApi inp cn cu server fuel (page + 1)
              else [])) = outIds emitted ++ outIds (if cont then
                runApi inp cn cu server fuel (page + 1) else []) := by
            simp [outIds]
          rw [hsplit]
          exact List.Sublist.append h1 h2

theorem extractPosts_eq_filterMap : ∀ els : List PElem,
    extractPosts els = els.filterMap (fun e => if e.parseOk && e.valid then some e else none) := by
  intro els
  induction els using extractPosts.induct with
  | case1 => simp [extractPosts]
  | case2 e rest ih =>
      rw [show extractPosts (e :: rest)
          = processBatch ((e :: rest).take 10) ++ extractPosts ((e :: rest).drop 10) from by
        simp [extractPosts]]
      rw [ih]
      rw [show processBatch ((e :: rest).take 10)
          = ((e :: rest).take 10).filterMap
              (fun e => if e.parseOk && e.valid then some e else none) from rfl]
      rw [← List.filterMap_append]
      rw [List.take_append_drop]

/-- Claim C3 amended: neither strategy deduplicates - a re-returned id is
emitted again (the counterexample) - so uniqueness of emitted `Post.id`s holds
exactly when the source never re-returns an id: if the candidate ids across
all fetched pages (cursor strategy), or across the rendered elements (render
strategy), are pairwise distinct, then the emitted ids are pairwise
distinct. -/
theorem c3_amended :
    (∀ (inp : ApiInput) (cn cu : String) (server : Nat → JsValue) (fuel page : Nat),
        (apiCandidateIds server fuel page).Nodup →
          (outIds (runApi inp cn cu server fuel page)).Nodup)
      ∧ (∀ els : List PElem,
          (els.filterMap (fun e => if e.parseOk && e.valid then some e.pid else none)).Nodup →
            ((extractPosts els).map PElem.pid).Nodup) := by
  constructor
  · intro inp cn cu server fuel page h
    exact (runApi_ids_sublist inp cn cu server fuel page).nodup h
  · intro els h
    rw [extractPosts_eq_filterMap, List.map_filterMap]
    have hfun : (fun e : PElem => Option.map PElem.pid
          (if e.parseOk && e.valid then some e else none))
        = (fun e : PElem => if e.parseOk && e.valid then some e.pid else none) := by
      funext e
      split <;> rfl
    rw [hfun]
    exact h

/-- Claim C3 amended, instantiated: two pages with pairwise distinct ids give
pairwise distinct output ids, and a duplicate-free rendered element list does
too. -/
theorem c3_witness :
    (outIds (runApi inpMax100 "community-a" "https://www.skool.com/community-a"
        serverUniq 3 1)).Nodup
      ∧ ((extractPosts [⟨true, true, "x"⟩, ⟨true, false, "x"⟩, ⟨true, true, "y"⟩]).map
          PElem.pid).Nodup := by
  constructor
  · exact c3_amended.1 inpMax100 "community-a" "https://www.skool.com/community-a"
      serverUniq 3 1 (by decide)
  · exact c3_amended.2 [⟨true, true, "x"⟩, ⟨true, false, "x"⟩, ⟨true, true, "y"⟩] (by decide)

/-! ### Claim C9 -/

theorem getRef_alloc_lt {σ : Store} {v : List FPost} {r : Nat} (h : r < σ.length) :
    getRef (σ ++ [v]) r = getRef σ r := by
  simp [getRef, List.getElem?_append_left h]

theorem getRef_set_ne {σ : Store} {i : Nat} {v : List FPost} {r : Nat} (h : i ≠ r) :
    getRef (setRef σ i v) r = getRef σ r := by
  simp [getRef, setRef, List.getElem?_set_ne h]

/-- The invariant threaded through the filter pipeline: the store has not
shrunk below its initial length `n`, the current `filteredPosts` reference is
a fresh one (index at least `n`), and the input array `pr` still holds `v`. -/
def StoreInv (n pr : Nat) (v : List FPost) (σr : Store × Nat) : Prop :=
  n ≤ σr.1.length ∧ n ≤ σr.2 ∧ getRef σr.1 pr = v

theorem storeInv_alloc {n pr : Nat} {v : List FPost} {σ : Store} {r : Nat}
    (hpr : pr < n) (h : StoreInv n pr v (σ, r)) (w : List FPost) :
    StoreInv n pr v (allocRef σ w) := by
  obtain ⟨h1, _, h3⟩ := h
  dsimp only at h1 h3
  refine ⟨?_, ?_, ?_⟩
  · simp only [allocRef, List.length_append, List.length_cons, List.length_nil]
    omega
  · simp only [allocRef]
    omega
  · simp only [allocRef]
    rw [getRef_alloc_lt (by omega)]
    exact h3

theorem storeInv_dateStep {n pr : Nat} {v : List FPost} {now : Int} {sf : SearchFilters}
    {σr : Store × Nat} (hpr : pr < n) (h : StoreInv n pr v σr) :
    StoreInv n pr v (dateStep now sf σr) := by
  obtain ⟨σ, r⟩ := σr
  unfold dateStep filterByDateRangeS
  split
  · split
    · split
      · exact h
      · exact storeInv_alloc hpr h _
    · exact h
  · exact h

theorem storeInv_engagementStep {n pr : Nat} {v : List FPost} {sf : SearchFilters}
    {σr : Store × Nat} (hpr : pr < n) (h : StoreInv n pr v σr) :
    StoreInv n pr v (engagementStep sf σr) := by
  obtain ⟨σ, r⟩ := σr
  unfold engagementStep
  split
  · split
    · exact storeInv_alloc hpr h _
    · exact h
  · exact h

theorem storeInv_contentStep {n pr : Nat} {v : List FPost} {sf : SearchFilters}
    {σr : Store × Nat} (hpr : pr < n) (h : StoreInv n pr v σr) :
    StoreInv n pr v (contentStep sf σr) := by
  obtain ⟨σ, r⟩ := σr
  unfold contentStep
  split
  · split
    · exact storeInv_alloc hpr h _
    · exact h
  · exact h

theorem storeInv_authorsStep {n pr : Nat} {v : List FPost} {sf : SearchFilters}
    {σr : Store × Nat} (hpr : pr < n) (h : StoreInv n pr v σr) :
    StoreInv n pr v (authorsStep sf σr) := by
  obtain ⟨σ, r⟩ := σr
  unfold authorsStep
  split
  · split
    · exact storeInv_alloc hpr h _
    · exact h
  · exact h

theorem getRef_sortStep {n pr : Nat} {v : List FPost} {sf : SearchFilters}
    {σr : Store × Nat} (hpr : pr < n) (h : StoreInv n pr v σr) :
    getRef (sortStep sf σr).1 pr = v := by
  obtain ⟨σ, r⟩ := σr
  obtain ⟨_, h2, h3⟩ := h
  unfold sortStep
  split
  · simp only
    rw [getRef_set_ne (by omega)]
    exact h3
  · exact h3

/-- Claim C9: the filter/sort pipeline never mutates its input array.
`applyFilters` starts from the spread copy `[...this.posts]`, every filter
group allocates a fresh array, and the in-place `sort` only ever touches one
of those fresh arrays - so the array behind `posts` holds exactly its original
elements, in their original order, after the call; `processAdvancedFilters`'s
shortcut path returns the input untouched. -/
theorem c9_theorem : ∀ (σ : Store) (postsRef : Nat) (inp : FilterInput) (now : Int),
    postsRef < σ.length →
      getRef (processAdvancedFiltersS σ postsRef inp now).1 postsRef = getRef σ postsRef := by
  intro σ pr inp now hlt
  unfold processAdvancedFiltersS
  dsimp only
  split
  · rfl
  · unfold applyFiltersS
    have h0 : StoreInv σ.length pr (getRef σ pr) (allocRef σ (getRef σ pr)) := by
      refine ⟨by simp [allocRef], by simp [allocRef], ?_⟩
      simp only [allocRef]
      exact getRef_alloc_lt hlt
    exact getRef_sortStep hlt
      (storeInv_authorsStep hlt (storeInv_contentStep hlt
        (storeInv_engagementStep hlt (storeInv_dateStep hlt h0))))

/-- Claim C9, instantiated: a one-element store with a sorting request comes
back with the input array unchanged. -/
theorem c9_witness :
    getRef (processAdvancedFiltersS c9store 0 c9inp 0).1 0 = getRef c9store 0 :=
  c9_theorem c9store 0 c9inp 0 (by decide)
